import Mathlib

/-!
Verification development for the stock-direction prediction repository.

The feature-derivation pipeline (src/scripts/data_preparation.py) and the
prediction-serving endpoints (src/app/main.py) are shallowly embedded below.
Pandas float cells are modelled by `PVal` (a rational number, a signed
infinity, or NaN); rolling statistics follow the pandas semantics with
`min_periods = window` (a window shorter than requested yields NaN) and the
sample (N-1) estimator for the rolling standard deviation.  Calendar dates
are modelled as integer day numbers counted from 1970-01-01 (a Thursday), so
the pandas weekday (Monday = 0) of day `d` is `(d + 3) % 7`.
-/

namespace StockPred

/-- A pandas float cell: a finite value, a signed infinity, or NaN. -/
inductive PVal where
  | num (q : ℚ)
  | inf
  | ninf
  | nan
deriving DecidableEq, Repr, Inhabited

/-- Float division of finite values, with the IEEE outcomes pandas produces:
a nonzero value divided by zero gives a signed infinity and 0/0 gives NaN. -/
def fdiv (a b : ℚ) : PVal :=
  if b = 0 then (if a = 0 then PVal.nan else if 0 < a then PVal.inf else PVal.ninf)
  else PVal.num (a / b)

/-- Whether a cell holds a finite value (neither NaN nor a signed infinity). -/
def PVal.isNum : PVal → Bool
  | .num _ => true
  | _ => false

/-- Division of a finite numerator by a possibly-NaN/infinite cell
(as in `volume / volume.rolling(5).mean()`). -/
def pdivNum (a : ℚ) : PVal → PVal
  | .num b => fdiv a b
  | .inf => .num 0
  | .ninf => .num 0
  | .nan => .nan

/-- One row of `raw_stock_prices.csv`: a symbol, a calendar date (integer day
number since 1970-01-01) and the OHLCV fields. -/
structure PriceBar where
  symbol : String
  date : Int
  open_ : ℚ
  high : ℚ
  low : ℚ
  close : ℚ
  volume : ℚ
deriving DecidableEq, Repr, Inhabited

/-- The trailing window of (at most) `k` values ending at index `i` inclusive,
as used by `Series.rolling(k)`. -/
def window (k : Nat) (xs : List ℚ) (i : Nat) : List ℚ :=
  (xs.take (i + 1)).drop (i + 1 - k)

/-- Arithmetic mean of a list of rationals. -/
def mean (l : List ℚ) : ℚ := l.sum / (l.length : ℚ)

/-- Sum of squared deviations from the mean. -/
def ssd (l : List ℚ) : ℚ := (l.map (fun x => (x - mean l) ^ 2)).sum

/-- Rolling mean `Series.rolling(k).mean()` at index `i`: NaN while fewer than `k`
observations are available, otherwise the mean of the trailing window. -/
def rollingMean (k : Nat) (xs : List ℚ) (i : Nat) : PVal :=
  if i + 1 < k then PVal.nan else PVal.num (mean (window k xs i))

/-- The square of `Series.rolling(k).std()` at index `i` (the sample variance,
with the N-1 denominator pandas uses by default); NaN while fewer than `k`
observations are available.  The standard deviation itself is recovered by
`FeatureRow.volatility_10`, which takes the real square root. -/
def rollingVarS (k : Nat) (xs : List ℚ) (i : Nat) : PVal :=
  if i + 1 < k then PVal.nan else PVal.num (ssd (window k xs i) / ((k - 1 : Nat) : ℚ))

/-- One row of the table built by `compute_features`: the raw bar fields plus
the derived feature columns.  The column `volatility_10` is stored through its
square `volatility_10_sq` (the sample variance), which is rational; the
standard deviation itself is the real number `FeatureRow.volatility_10`. -/
structure FeatureRow where
  symbol : String
  date : Int
  open_ : ℚ
  high : ℚ
  low : ℚ
  close : ℚ
  volume : ℚ
  daily_return : PVal
  ma_5 : PVal
  volatility_10_sq : PVal
  volume_spike : PVal
  day_of_week : Int
  lag_close_1 : PVal
  hl_range : PVal
  next_day_close : PVal
  price_up : Int
deriving DecidableEq, Repr, Inhabited

/-- The row the feature pipeline computes at position `i` of the date-sorted
per-symbol frame `df` (before `dropna`), column by column after
`compute_features` in src/scripts/data_preparation.py. -/
def mkRow (df : List PriceBar) (i : Nat) : FeatureRow :=
  let b := df.getD i default
  let closes := df.map PriceBar.close
  let volumes := df.map PriceBar.volume
  let ndc : Option ℚ := if i + 1 < df.length then some (closes.getD (i + 1) 0) else none
  { symbol := b.symbol
    date := b.date
    open_ := b.open_
    high := b.high
    low := b.low
    close := b.close
    volume := b.volume
    daily_return := fdiv (b.close - b.open_) b.open_
    ma_5 := rollingMean 5 closes i
    volatility_10_sq := rollingVarS 10 closes i
    volume_spike := pdivNum b.volume (rollingMean 5 volumes i)
    day_of_week := (b.date + 3) % 7
    lag_close_1 := if i = 0 then PVal.nan else PVal.num (closes.getD (i - 1) 0)
    hl_range := fdiv (b.high - b.low) b.low
    next_day_close := match ndc with | some v => PVal.num v | none => PVal.nan
    price_up := if (match ndc with | some v => decide (b.close < v) | none => false) then 1 else 0 }

/-- Whether `DataFrame.dropna()` removes the row: true when some cell is NaN.
Signed infinities are NOT dropped by pandas `dropna`.  The raw columns and the
integer columns `day_of_week` and `price_up` can never be NaN. -/
def FeatureRow.hasNa (r : FeatureRow) : Bool :=
  decide (r.daily_return = PVal.nan) || decide (r.ma_5 = PVal.nan) ||
  decide (r.volatility_10_sq = PVal.nan) || decide (r.volume_spike = PVal.nan) ||
  decide (r.lag_close_1 = PVal.nan) || decide (r.hl_range = PVal.nan) ||
  decide (r.next_day_close = PVal.nan)

/-- Whether every derived cell of the row holds a finite value. -/
def FeatureRow.allNum (r : FeatureRow) : Bool :=
  r.daily_return.isNum && r.ma_5.isNum && r.volatility_10_sq.isNum &&
  r.volume_spike.isNum && r.lag_close_1.isNum && r.hl_range.isNum &&
  r.next_day_close.isNum

/-- The `df.sort_values(by="date")` step at the head of `compute_features`. -/
def sortDf (l : List PriceBar) : List PriceBar :=
  List.insertionSort (fun a b => a.date ≤ b.date) l

/-- The `compute_features(symbol_df)` transformation: sort by date, derive every feature column,
then `dropna()`. -/
def compute_features (symbol_df : List PriceBar) : List FeatureRow :=
  ((List.range (sortDf symbol_df).length).map (fun i => mkRow (sortDf symbol_df) i)).filter
    (fun r => ! r.hasNa)

/-- The whole-table pipeline `df.groupby("symbol").apply(compute_features)`:
groups are the distinct symbols in ascending order (pandas `groupby` sorts its
keys), and each group is run through `compute_features` on its own bars. -/
def features_df (df : List PriceBar) : List FeatureRow :=
  ((List.insertionSort (fun a b : String => a ≤ b) (df.map PriceBar.symbol).dedup).map
    (fun s => compute_features (df.filter (fun b => decide (b.symbol = s))))).flatten

/-- The stored `volatility_10` column: the sample standard deviation, i.e. the
real square root of the stored sample variance; `none` models NaN. -/
noncomputable def FeatureRow.volatility_10 (r : FeatureRow) : Option ℝ :=
  match r.volatility_10_sq with
  | .num q => some (Real.sqrt (q : ℝ))
  | _ => none

/-- One row of `stock_features.csv` as `pd.read_csv` returns it to the serving
endpoints of src/app/main.py (numeric columns come back as plain floats).
Columns not used by the endpoints default to 0 for brevity of examples. -/
structure ServingRow where
  symbol : String
  date : Int
  open_ : ℚ := 0
  high : ℚ := 0
  low : ℚ := 0
  close : ℚ := 0
  volume : ℚ := 0
  daily_return : ℚ := 0
  ma_5 : ℚ := 0
  volatility_10 : ℚ := 0
  volume_spike : ℚ := 0
  day_of_week : ℚ := 0
  lag_close_1 : ℚ := 0
  hl_range : ℚ := 0
  next_day_close : ℚ := 0
  price_up : ℚ := 0
deriving DecidableEq, Repr, Inhabited

/-- The serving feature vector `latest_data[FEATURE_COLUMNS]`, in the fixed
order of `FEATURE_COLUMNS` in src/app/main.py. -/
def featureVector (r : ServingRow) : List ℚ :=
  [r.daily_return, r.ma_5, r.volatility_10, r.volume_spike, r.day_of_week,
   r.lag_close_1, r.hl_range]

/-- The trained classifier artifact: `predict` returns a class label and
`predict_proba` the probability distribution over the classes. -/
structure Model where
  predict : List ℚ → Nat
  predict_proba : List ℚ → List ℚ

/-- The response body of a successful `/predict/{symbol}` call. -/
structure PredictionResponse where
  symbol : String
  prediction : String
  confidence : ℚ
  predicted_date : String
deriving DecidableEq, Repr

/-- A FastAPI `HTTPException` with its status code and detail message. -/
structure HTTPException where
  status_code : Nat
  detail : String
deriving DecidableEq, Repr

/-- A fault raised inside the body of `predict`: either an `HTTPException`
raised deliberately, or any other Python exception. -/
inductive BodyFault where
  | http (e : HTTPException)
  | err (msg : String)

instance {ε α : Type} [DecidableEq ε] [DecidableEq α] : DecidableEq (Except ε α) := fun a b =>
  match a, b with
  | .error e, .error f =>
      if h : e = f then Decidable.isTrue (by rw [h]) else Decidable.isFalse (by simp [h])
  | .ok x, .ok y =>
      if h : x = y then Decidable.isTrue (by rw [h]) else Decidable.isFalse (by simp [h])
  | .error _, .ok _ => Decidable.isFalse (by simp)
  | .ok _, .error _ => Decidable.isFalse (by simp)

/-- The pandas weekday of integer day `d` (days since 1970-01-01, which was a
Thursday): Monday = 0 .. Sunday = 6. -/
def dayofweek (d : Int) : Int := (d + 3) % 7

/-- The predicted-date rule of `predict`: one day after the latest row, and if
that day is a Saturday or Sunday (weekday index at least 5), add the number of
days needed to reach the next Monday. -/
def nextTradingDay (d : Int) : Int :=
  if 5 ≤ dayofweek (d + 1) then (d + 1) + (7 - dayofweek (d + 1)) else d + 1

/-- Two-digit zero padding for months and days. -/
def pad2 (n : Int) : String := (if n < 10 then "0" else "") ++ toString n

/-- Rendering of `strftime("%Y-%m-%d")` on integer day `z` since 1970-01-01, via the
standard civil-from-days conversion (valid for the non-negative day numbers
used here, where Euclidean and truncating division agree). -/
def toDateStr (z : Int) : String :=
  let z' := z + 719468
  let era := z' / 146097
  let doe := z' - era * 146097
  let yoe := (doe - doe / 1460 + doe / 36524 - doe / 146096) / 365
  let y := yoe + era * 400
  let doy := doe - (365 * yoe + yoe / 4 - yoe / 100)
  let mp := (5 * doy + 2) / 153
  let d := doy - (153 * mp + 2) / 5 + 1
  let m := if mp < 10 then mp + 3 else mp - 9
  toString (if m ≤ 2 then y + 1 else y) ++ "-" ++ pad2 m ++ "-" ++ pad2 d

/-- The row `predict` uses as its "latest available data point": the
physically last row (`iloc[-1]`) of the rows whose symbol matches. -/
def latestRow (raw_data : List ServingRow) (symbol : String) : Option ServingRow :=
  (raw_data.filter (fun r => decide (r.symbol = symbol))).getLast?

/-- The body of the `try` block of `predict` in src/app/main.py: membership
check, latest-row selection, feature extraction, inference, confidence lookup
and predicted-date formatting. -/
def predictBody (model : Model) (raw_data : List ServingRow) (symbol : String) :
    Except BodyFault PredictionResponse :=
  if symbol ∈ raw_data.map ServingRow.symbol then
    match latestRow raw_data symbol with
    | none => Except.error (BodyFault.err "single positional indexer is out-of-bounds")
    | some latest_data =>
      let features := featureVector latest_data
      let prediction_value := model.predict features
      let prediction_proba := model.predict_proba features
      match prediction_proba[prediction_value]? with
      | none => Except.error (BodyFault.err
          ("index " ++ toString prediction_value ++ " is out of bounds"))
      | some confidence =>
        Except.ok
          { symbol := symbol
            prediction := if prediction_value = 1 then "UP" else "DOWN"
            confidence := confidence
            predicted_date := toDateStr (nextTradingDay latest_data.date) }
  else
    Except.error (BodyFault.http
      ⟨404, "Symbol \x27" ++ symbol ++ "\x27 not found in the dataset"⟩)

/-- The `/predict/{symbol}` handler: fail fast when the startup model load
failed, otherwise run the body; an `HTTPException` raised by the body is
re-raised unchanged, any other fault is wrapped into a 500 response.  The
`raw_data` argument is the content of `stock_features.csv` as read by
`pd.read_csv` at request time. -/
def predict (model : Option Model) (raw_data : List ServingRow) (symbol : String) :
    Except HTTPException PredictionResponse :=
  match model with
  | none => Except.error ⟨500, "Model not loaded. Please check server logs."⟩
  | some m =>
    match predictBody m raw_data symbol with
    | .ok resp => .ok resp
    | .error (.http e) => .error e
    | .error (.err msg) =>
        .error ⟨500, "An error occurred during prediction: " ++ msg⟩

/-- The `/symbols` handler: the distinct symbols of the feature table, sorted
ascending.  The `raw_data` argument is the CSV content read at request time;
the embedded read always succeeds, so the 500 branch of the handler does not
appear. -/
def get_available_symbols (raw_data : List ServingRow) : Except HTTPException (List String) :=
  Except.ok (List.insertionSort (fun a b : String => a ≤ b) (raw_data.map ServingRow.symbol).dedup)

/-- A constant price bar used by concrete examples. -/
def cbar (s : String) (d : Int) (v : ℚ) : PriceBar :=
  { symbol := s, date := d, open_ := 1, high := 1, low := 1, close := 1, volume := v }

/-- Eleven constant bars of one symbol with positive volume. -/
def bars11 : List PriceBar := (List.range 11).map (fun i => cbar "A" (i : Int) 1)

/-- Nine constant bars of one symbol. -/
def bars9 : List PriceBar := (List.range 9).map (fun i => cbar "A" (i : Int) 1)

/-- Eleven constant bars of one symbol whose volume is always zero (legal
input: the data model only requires volumes to be non-negative). -/
def barsZ : List PriceBar := (List.range 11).map (fun i => cbar "A" (i : Int) 0)

/-- Two interleaved symbols, eleven bars each. -/
def barsAB : List PriceBar := bars11 ++ (List.range 11).map (fun i => cbar "B" (i : Int) 1)

/-- A serving row for symbol "A" dated Friday 2024-01-05 (day 19727). -/
def rA19727 : ServingRow := { symbol := "A", date := 19727 }

/-- A one-row feature store. -/
def storeA : List ServingRow := [rA19727]

/-- Two same-symbol serving rows with distinct dates. -/
def rA0 : ServingRow := { symbol := "A", date := 0 }

/-- Companion row to `rA0`, one day later. -/
def rA1 : ServingRow := { symbol := "A", date := 1 }

/-- A classifier that always answers class 1 with probabilities [1/3, 2/3]. -/
def mUp : Model := { predict := fun _ => 1, predict_proba := fun _ => [1/3, 2/3] }

/-! Helper lemmas about the embedded pipeline. -/

theorem mkRow_daily_return (df : List PriceBar) (i : Nat) :
    (mkRow df i).daily_return =
      fdiv ((df.getD i default).close - (df.getD i default).open_) (df.getD i default).open_ := rfl

theorem mkRow_ma_5 (df : List PriceBar) (i : Nat) :
    (mkRow df i).ma_5 = rollingMean 5 (df.map PriceBar.close) i := rfl

theorem mkRow_volatility_sq (df : List PriceBar) (i : Nat) :
    (mkRow df i).volatility_10_sq = rollingVarS 10 (df.map PriceBar.close) i := rfl

theorem mkRow_volume_spike (df : List PriceBar) (i : Nat) :
    (mkRow df i).volume_spike =
      pdivNum (df.getD i default).volume (rollingMean 5 (df.map PriceBar.volume) i) := rfl

theorem mkRow_lag_close (df : List PriceBar) (i : Nat) :
    (mkRow df i).lag_close_1 =
      (if i = 0 then PVal.nan else PVal.num ((df.map PriceBar.close).getD (i - 1) 0)) := rfl

theorem mkRow_hl_range (df : List PriceBar) (i : Nat) :
    (mkRow df i).hl_range =
      fdiv ((df.getD i default).high - (df.getD i default).low) (df.getD i default).low := rfl

theorem mkRow_next_day_close (df : List PriceBar) (i : Nat) :
    (mkRow df i).next_day_close =
      (if i + 1 < df.length then PVal.num ((df.map PriceBar.close).getD (i + 1) 0)
       else PVal.nan) := by
  show (match (if i + 1 < df.length then some ((df.map PriceBar.close).getD (i + 1) 0)
         else none : Option ℚ) with
        | some v => PVal.num v | none => PVal.nan) = _
  split_ifs <;> rfl

theorem mkRow_symbol (df : List PriceBar) (i : Nat) :
    (mkRow df i).symbol = (df.getD i default).symbol := rfl

theorem fdiv_eq_nan_iff (a b : ℚ) : fdiv a b = PVal.nan ↔ b = 0 ∧ a = 0 := by
  unfold fdiv
  split_ifs <;> simp_all

theorem fdiv_isNum (a b : ℚ) (hb : b ≠ 0) : (fdiv a b).isNum = true := by
  unfold fdiv
  rw [if_neg hb]
  rfl

theorem rollingMean_eq_nan_iff (k : Nat) (xs : List ℚ) (i : Nat) :
    rollingMean k xs i = PVal.nan ↔ i + 1 < k := by
  unfold rollingMean
  split_ifs <;> simp_all

theorem rollingVarS_eq_nan_iff (k : Nat) (xs : List ℚ) (i : Nat) :
    rollingVarS k xs i = PVal.nan ↔ i + 1 < k := by
  unfold rollingVarS
  split_ifs <;> simp_all

theorem window_length (k : Nat) (xs : List ℚ) (i : Nat) (hi : i < xs.length) (hk : k ≤ i + 1) :
    (window k xs i).length = k := by
  unfold window
  rw [List.length_drop, List.length_take]
  omega

theorem window_subset (k : Nat) (xs : List ℚ) (i : Nat) :
    ∀ x ∈ window k xs i, x ∈ xs := fun _ hx =>
  List.mem_of_mem_take (List.mem_of_mem_drop hx)

theorem getD_mem_window (k : Nat) (xs : List ℚ) (i : Nat) (hk : 1 ≤ k) (hi : i < xs.length) :
    xs.getD i 0 ∈ window k xs i := by
  have htake : (xs.take (i + 1)).length = i + 1 := by rw [List.length_take]; omega
  have hlen : (window k xs i).length = i + 1 - (i + 1 - k) := by
    unfold window
    rw [List.length_drop, htake]
  have hj : i - (i + 1 - k) < (window k xs i).length := by omega
  have : (window k xs i).get ⟨i - (i + 1 - k), hj⟩ = xs.getD i 0 := by
    rw [List.get_eq_getElem]
    unfold window
    rw [List.getElem_drop]
    have hidx : i + 1 - k + (i - (i + 1 - k)) = i := by omega
    simp only [List.getElem_take, List.getD_eq_getElem?_getD]
    rw [List.getElem?_eq_getElem hi]
    simp [hidx]
  exact this ▸ List.get_mem _ _ hj


theorem mean_pos {l : List ℚ} (h : ∀ x ∈ l, 0 < x) (hne : l ≠ []) : 0 < mean l := by
  unfold mean
  have hs : 0 < l.sum := List.sum_pos l h hne
  have hl : (0 : ℚ) < (l.length : ℚ) := by
    have : 0 < l.length := List.length_pos.mpr hne
    exact_mod_cast this
  positivity

theorem mean_zero_sum {l : List ℚ} (hne : l ≠ []) (hm : mean l = 0) : l.sum = 0 := by
  unfold mean at hm
  have hl : ((l.length : ℚ)) ≠ 0 := by
    have : 0 < l.length := List.length_pos.mpr hne
    exact_mod_cast this.ne'
  exact (div_eq_zero_iff.mp hm).resolve_right hl

theorem getD_map_volume (df : List PriceBar) (i : Nat) (hi : i < df.length) :
    (df.map PriceBar.volume).getD i 0 = (df.getD i default).volume := by
  have hi' : i < (df.map PriceBar.volume).length := by simpa using hi
  rw [List.getD_eq_getElem?_getD, List.getElem?_eq_getElem hi',
      List.getD_eq_getElem?_getD, List.getElem?_eq_getElem hi]
  simp

/-- If the trailing 5-bar volume mean at row `i` is zero and volumes are
non-negative, the `volume_spike` cell of that row is NaN (it is 0/0). -/
theorem spike_nan_of_mean_zero (df : List PriceBar) (i : Nat) (hi : i < df.length)
    (hnn : ∀ b ∈ df, 0 ≤ b.volume)
    (hm : rollingMean 5 (df.map PriceBar.volume) i = PVal.num 0) :
    (mkRow df i).volume_spike = PVal.nan := by
  have hlen : i < (df.map PriceBar.volume).length := by simpa using hi
  have hk : ¬ i + 1 < 5 := by
    intro hlt
    rw [rollingMean, if_pos hlt] at hm
    exact PVal.noConfusion hm
  have hmean : mean (window 5 (df.map PriceBar.volume) i) = 0 := by
    rw [rollingMean, if_neg hk] at hm
    exact PVal.num.inj hm
  have hwne : window 5 (df.map PriceBar.volume) i ≠ [] := by
    have := window_length 5 (df.map PriceBar.volume) i hlen (by omega)
    intro hnil
    rw [hnil] at this
    simp at this
  have hsum : (window 5 (df.map PriceBar.volume) i).sum = 0 := mean_zero_sum hwne hmean
  have hzero : ∀ x ∈ window 5 (df.map PriceBar.volume) i, x = 0 := by
    intro x hx
    refine List.all_zero_of_le_zero_le_of_sum_eq_zero ?_ hsum hx
    intro y hy
    have := window_subset 5 (df.map PriceBar.volume) i y hy
    obtain ⟨b, hb, rfl⟩ := List.mem_map.mp this
    exact hnn b hb
  have hv : (df.getD i default).volume = 0 := by
    rw [← getD_map_volume df i hi]
    exact hzero _ (getD_mem_window 5 (df.map PriceBar.volume) i (by omega) hlen)
  rw [mkRow_volume_spike, hm, hv]
  show fdiv 0 0 = PVal.nan
  unfold fdiv
  simp

theorem hasNa_false_char (r : FeatureRow) :
    r.hasNa = false ↔
      (r.daily_return ≠ PVal.nan ∧ r.ma_5 ≠ PVal.nan ∧ r.volatility_10_sq ≠ PVal.nan ∧
       r.volume_spike ≠ PVal.nan ∧ r.lag_close_1 ≠ PVal.nan ∧ r.hl_range ≠ PVal.nan ∧
       r.next_day_close ≠ PVal.nan) := by
  unfold FeatureRow.hasNa
  simp [and_assoc]

/-- Characterization of the rows `dropna` keeps: under the data-model price
positivity together with positive volumes, the row at position `i` of the
sorted frame survives exactly when a full 10-bar history exists (`9 ≤ i`) and
a next bar exists for the shifted label (`i + 2 ≤ n`). -/
theorem hasNa_false_iff (df : List PriceBar) (i : Nat) (hi : i < df.length)
    (hpos : ∀ b ∈ df, 0 < b.open_ ∧ 0 < b.low ∧ 0 < b.volume) :
    (mkRow df i).hasNa = false ↔ (9 ≤ i ∧ i + 2 ≤ df.length) := by
  have hb : df.getD i default ∈ df := by
    rw [List.getD_eq_getElem?_getD, List.getElem?_eq_getElem hi]
    exact List.getElem_mem hi
  obtain ⟨ho, hl, hv⟩ := hpos _ hb
  rw [hasNa_false_char]
  constructor
  · rintro ⟨-, -, hvol, -, -, -, hnext⟩
    rw [mkRow_volatility_sq, Ne, rollingVarS_eq_nan_iff] at hvol
    rw [mkRow_next_day_close] at hnext
    constructor
    · omega
    · by_contra hc
      rw [if_neg (by omega)] at hnext
      exact hnext rfl
  · rintro ⟨h9, hn⟩
    refine ⟨?_, ?_, ?_, ?_, ?_, ?_, ?_⟩
    · rw [mkRow_daily_return, Ne, fdiv_eq_nan_iff]
      rintro ⟨h0, -⟩
      exact absurd h0 ho.ne'
    · rw [mkRow_ma_5, Ne, rollingMean_eq_nan_iff]
      omega
    · rw [mkRow_volatility_sq, Ne, rollingVarS_eq_nan_iff]
      omega
    · rw [mkRow_volume_spike]
      have hlen : i < (df.map PriceBar.volume).length := by simpa using hi
      have hmean : rollingMean 5 (df.map PriceBar.volume) i =
          PVal.num (mean (window 5 (df.map PriceBar.volume) i)) := by
        rw [rollingMean, if_neg (by omega)]
      rw [hmean]
      have hmpos : 0 < mean (window 5 (df.map PriceBar.volume) i) := by
        refine mean_pos ?_ ?_
        · intro x hx
          obtain ⟨b, hbm, rfl⟩ := List.mem_map.mp (window_subset _ _ _ x hx)
          exact (hpos b hbm).2.2
        · have := window_length 5 (df.map PriceBar.volume) i hlen (by omega)
          intro hnil
          rw [hnil] at this
          simp at this
      show fdiv _ _ ≠ PVal.nan
      rw [Ne, fdiv_eq_nan_iff]
      rintro ⟨h0, -⟩
      exact absurd h0 hmpos.ne'
    · rw [mkRow_lag_close, if_neg (by omega)]
      exact fun h => PVal.noConfusion h
    · rw [mkRow_hl_range, Ne, fdiv_eq_nan_iff]
      rintro ⟨h0, -⟩
      exact absurd h0 hl.ne'
    · rw [mkRow_next_day_close, if_pos (by omega)]
      exact fun h => PVal.noConfusion h

theorem range_filter_len (b n : Nat) :
    ((List.range n).filter (fun i => decide (9 ≤ i ∧ i + 2 ≤ b))).length = min n (b - 1) - 9 := by
  induction n with
  | zero => simp
  | succ n ih =>
    rw [List.range_succ, List.filter_append, List.length_append, ih]
    by_cases h : (9 ≤ n ∧ n + 2 ≤ b) <;> simp [h] <;> omega

/-- Row count of the emitted feature table: with positive prices and volumes,
exactly the first nine rows (incomplete 10-bar window) and the last row
(shifted label) are dropped, so `N` bars yield `N - 10` emitted rows. -/
theorem compute_features_length (bars : List PriceBar)
    (hpos : ∀ b ∈ bars, 0 < b.open_ ∧ 0 < b.low ∧ 0 < b.volume) :
    (compute_features bars).length = bars.length - 10 := by
  have hperm := List.perm_insertionSort (fun a b : PriceBar => a.date ≤ b.date) bars
  have hpos' : ∀ b ∈ sortDf bars, 0 < b.open_ ∧ 0 < b.low ∧ 0 < b.volume := by
    intro b hb
    exact hpos b (hperm.mem_iff.mp hb)
  have hlen : (sortDf bars).length = bars.length := hperm.length_eq
  unfold compute_features
  rw [List.filter_map, List.length_map]
  have hcongr : ∀ i ∈ List.range (sortDf bars).length,
      ((fun r => ! r.hasNa) ∘ fun i => mkRow (sortDf bars) i) i =
        (fun i => decide (9 ≤ i ∧ i + 2 ≤ (sortDf bars).length)) i := by
    intro i hi
    have hi' : i < (sortDf bars).length := List.mem_range.mp hi
    have hiff := hasNa_false_iff (sortDf bars) i hi' hpos'
    by_cases hP : (9 ≤ i ∧ i + 2 ≤ (sortDf bars).length)
    · simp only [Function.comp_apply, hiff.mpr hP, decide_eq_true hP]
      rfl
    · have ht : (mkRow (sortDf bars) i).hasNa = true := by
        rcases Bool.eq_false_or_eq_true ((mkRow (sortDf bars) i).hasNa) with h | h
        · exact h
        · exact absurd (hiff.mp h) hP
      simp [Function.comp_apply, ht, hP]
  rw [List.filter_congr hcongr, range_filter_len]
  omega

/-- C2 counterexample: the claim's exact count fails on a legal input.  The
eleven chronologically sorted bars of `barsZ` have positive prices and
non-negative (zero) volumes, yet the emitted table is empty, not of size
11 - 10 = 1: every row's `volume_spike` is 0/0 = NaN, so `dropna` removes
rows beyond the first nine and the last one. -/
theorem C2_counterexample :
    barsZ.length = 11 ∧ (compute_features barsZ).length ≠ barsZ.length - 10 := by
  constructor
  · rfl
  · with_unfolding_all decide

/-- C2 (amended): for bars with positive prices and positive volumes the
feature derivation emits exactly `N - 10` rows (the emitted table includes
the label columns: `N - 9` rows have a full 10-bar window and one more is
dropped for the shifted label), and a symbol with exactly 9 bars yields zero
feature rows. -/
theorem C2_theorem (bars : List PriceBar)
    (hpos : ∀ b ∈ bars, 0 < b.open_ ∧ 0 < b.low ∧ 0 < b.volume) :
    (compute_features bars).length = bars.length - 10 ∧
    (bars.length = 9 → (compute_features bars).length = 0) := by
  refine ⟨compute_features_length bars hpos, fun h9 => ?_⟩
  rw [compute_features_length bars hpos, h9]

/-- C2 witness: the amended count at concrete inputs (11 bars give 1 row,
9 bars give 0 rows). -/
theorem C2_witness :
    (compute_features bars11).length = bars11.length - 10 ∧
    (compute_features bars9).length = 0 :=
  ⟨(C2_theorem bars11 (by with_unfolding_all decide)).1,
   (C2_theorem bars9 (by with_unfolding_all decide)).2 (by rfl)⟩

/-- C3: the predicted date is the latest row's date plus one calendar day;
when that day is a Saturday or Sunday (pandas weekday index 5 or 6) it is
advanced to the following Monday (weekday 0, at most two days later), and on
the concrete examples: Friday 2024-01-05 (day 19727) predicts "2024-01-08"
and never "2024-01-06" (day 19728), while Tuesday 2024-01-02 (day 19724)
predicts "2024-01-03". -/
theorem C3_theorem :
    (∀ d : Int, dayofweek (d + 1) < 5 → nextTradingDay d = d + 1) ∧
    (∀ d : Int, 5 ≤ dayofweek (d + 1) →
       dayofweek (nextTradingDay d) = 0 ∧ d + 1 < nextTradingDay d ∧
       nextTradingDay d ≤ d + 3) ∧
    toDateStr 19727 = "2024-01-05" ∧ dayofweek 19727 = 4 ∧
    toDateStr (nextTradingDay 19727) = "2024-01-08" ∧
    nextTradingDay 19727 ≠ 19728 ∧ toDateStr 19728 = "2024-01-06" ∧
    toDateStr 19724 = "2024-01-02" ∧ dayofweek 19724 = 1 ∧
    toDateStr (nextTradingDay 19724) = "2024-01-03" := by
  refine ⟨?_, ?_, ?_, ?_, ?_, ?_, ?_, ?_, ?_, ?_⟩
  · intro d h
    rw [nextTradingDay, if_neg (by omega)]
  · intro d h
    rw [nextTradingDay, if_pos h]
    unfold dayofweek at *
    omega
  all_goals with_unfolding_all decide

/-- C3 witness: the general clauses applied at the concrete Friday and
Tuesday instances. -/
theorem C3_witness :
    nextTradingDay 19724 = 19725 ∧ dayofweek (nextTradingDay 19727) = 0 ∧
    nextTradingDay 19727 ≤ 19730 :=
  ⟨C3_theorem.1 19724 (by decide),
   (C3_theorem.2.1 19727 (by decide)).1,
   (C3_theorem.2.1 19727 (by decide)).2.2⟩

theorem mem_compute_features (bars : List PriceBar) (r : FeatureRow)
    (hr : r ∈ compute_features bars) :
    ∃ i, i < (sortDf bars).length ∧ r = mkRow (sortDf bars) i ∧ r.hasNa = false := by
  unfold compute_features at hr
  obtain ⟨hmem, hkeep⟩ := List.mem_filter.mp hr
  obtain ⟨i, hi, rfl⟩ := List.mem_map.mp hmem
  exact ⟨i, List.mem_range.mp hi, rfl, by simpa using hkeep⟩

theorem compute_features_symbol (bars : List PriceBar) (s : String)
    (hall : ∀ b ∈ bars, b.symbol = s) :
    ∀ r ∈ compute_features bars, r.symbol = s := by
  intro r hr
  obtain ⟨i, hi, rfl, -⟩ := mem_compute_features bars r hr
  rw [mkRow_symbol]
  have hperm := List.perm_insertionSort (fun a b : PriceBar => a.date ≤ b.date) bars
  have hb : (sortDf bars).getD i default ∈ sortDf bars := by
    rw [List.getD_eq_getElem?_getD, List.getElem?_eq_getElem hi]
    exact List.getElem_mem hi
  exact hall _ (hperm.mem_iff.mp hb)

/-- C4: every row of the whole-table pipeline output is produced by running
`compute_features` on exactly the bars of that row's own symbol, so each
rolling statistic only ever sees values of that symbol, whatever the
interleaving of symbols in the input. -/
theorem C4_theorem (df : List PriceBar) (r : FeatureRow) (hr : r ∈ features_df df) :
    r ∈ compute_features (df.filter (fun b => decide (b.symbol = r.symbol))) := by
  unfold features_df at hr
  obtain ⟨L, hL, hrL⟩ := List.mem_flatten.mp hr
  obtain ⟨s, -, rfl⟩ := List.mem_map.mp hL
  have hsym : r.symbol = s := by
    refine compute_features_symbol _ s ?_ r hrL
    intro b hb
    have := (List.mem_filter.mp hb).2
    exact of_decide_eq_true this
  rw [hsym]
  exact hrL

/-- C4 witness: the first output row of a two-symbol interleaved table is a
row of `compute_features` run on its own symbol's bars alone. -/
theorem C4_witness :
    (features_df barsAB).getD 0 default ∈
      compute_features (barsAB.filter
        (fun b => decide (b.symbol = ((features_df barsAB).getD 0 default).symbol))) :=
  C4_theorem barsAB _ (by with_unfolding_all decide)

theorem rollingMean_num_or_nan (k : Nat) (xs : List ℚ) (i : Nat) :
    (∃ q, rollingMean k xs i = PVal.num q) ∨ rollingMean k xs i = PVal.nan := by
  unfold rollingMean
  split_ifs <;> simp

theorem rollingVarS_num_or_nan (k : Nat) (xs : List ℚ) (i : Nat) :
    (∃ q, rollingVarS k xs i = PVal.num q) ∨ rollingVarS k xs i = PVal.nan := by
  unfold rollingVarS
  split_ifs <;> simp

/-- C6: with non-negative volumes (and data-model positive prices), a row
whose trailing 5-bar volume mean is zero has a NaN `volume_spike` (0/0) and
is therefore removed by `dropna`; and every emitted feature row holds only
finite values — no infinity and no NaN in any derived column. -/
theorem C6_theorem (bars : List PriceBar)
    (hpos : ∀ b ∈ bars, 0 < b.open_ ∧ 0 < b.low ∧ 0 ≤ b.volume) :
    (∀ i, i < (sortDf bars).length →
       rollingMean 5 ((sortDf bars).map PriceBar.volume) i = PVal.num 0 →
       (mkRow (sortDf bars) i).hasNa = true) ∧
    (∀ r ∈ compute_features bars, r.allNum = true) := by
  have hperm := List.perm_insertionSort (fun a b : PriceBar => a.date ≤ b.date) bars
  have hpos' : ∀ b ∈ sortDf bars, 0 < b.open_ ∧ 0 < b.low ∧ 0 ≤ b.volume := by
    intro b hb
    exact hpos b (hperm.mem_iff.mp hb)
  constructor
  · intro i hi hm
    have hspike := spike_nan_of_mean_zero (sortDf bars) i hi (fun b hb => (hpos' b hb).2.2) hm
    unfold FeatureRow.hasNa
    rw [hspike]
    simp
  · intro r hr
    obtain ⟨i, hi, rfl, hkeep⟩ := mem_compute_features bars r hr
    rw [hasNa_false_char] at hkeep
    obtain ⟨hdr, hma, hvol, hsp, hlag, hhl, hnext⟩ := hkeep
    have hb : (sortDf bars).getD i default ∈ sortDf bars := by
      rw [List.getD_eq_getElem?_getD, List.getElem?_eq_getElem hi]
      exact List.getElem_mem hi
    obtain ⟨ho, hl, hv⟩ := hpos' _ hb
    unfold FeatureRow.allNum
    simp only [Bool.and_eq_true]
    refine ⟨⟨⟨⟨⟨⟨?_, ?_⟩, ?_⟩, ?_⟩, ?_⟩, ?_⟩, ?_⟩
    · rw [mkRow_daily_return]
      exact fdiv_isNum _ _ ho.ne'
    · rcases rollingMean_num_or_nan 5 ((sortDf bars).map PriceBar.close) i with ⟨q, hq⟩ | hq
      · rw [mkRow_ma_5, hq]; rfl
      · rw [mkRow_ma_5] at hma; exact absurd hq hma
    · rcases rollingVarS_num_or_nan 10 ((sortDf bars).map PriceBar.close) i with ⟨q, hq⟩ | hq
      · rw [mkRow_volatility_sq, hq]; rfl
      · rw [mkRow_volatility_sq] at hvol; exact absurd hq hvol
    · rcases rollingMean_num_or_nan 5 ((sortDf bars).map PriceBar.volume) i with ⟨m, hq⟩ | hq
      · by_cases hm0 : m = 0
        · subst hm0
          have := spike_nan_of_mean_zero (sortDf bars) i hi
            (fun b hb => (hpos' b hb).2.2) hq
          exact absurd this hsp
        · rw [mkRow_volume_spike, hq]
          show (fdiv _ m).isNum = true
          exact fdiv_isNum _ _ hm0
      · rw [mkRow_volume_spike, hq] at hsp
        exact absurd rfl hsp
    · rw [mkRow_lag_close] at hlag ⊢
      split_ifs with h0
      · rw [if_pos h0] at hlag; exact absurd rfl hlag
      · rfl
    · rw [mkRow_hl_range]
      exact fdiv_isNum _ _ hl.ne'
    · rw [mkRow_next_day_close] at hnext ⊢
      split_ifs with h0
      · rfl
      · rw [if_neg h0] at hnext; exact absurd rfl hnext

/-- C6 witness: on the all-zero-volume bars the row at position 4 (the first
with a full 5-bar volume window) is marked for dropping, and the single
emitted row of the positive-volume bars is fully finite. -/
theorem C6_witness :
    (mkRow (sortDf barsZ) 4).hasNa = true ∧
    (mkRow (sortDf bars11) 9).allNum = true :=
  ⟨(C6_theorem barsZ (by with_unfolding_all decide)).1 4 (by with_unfolding_all decide)
     (by with_unfolding_all decide),
   (C6_theorem bars11 (by with_unfolding_all decide)).2 _ (by with_unfolding_all decide)⟩

theorem ssd_nonneg (l : List ℚ) : 0 ≤ ssd l := by
  unfold ssd
  refine List.sum_nonneg ?_
  intro x hx
  obtain ⟨y, -, rfl⟩ := List.mem_map.mp hx
  positivity

theorem ssd_replicate (n : Nat) (c : ℚ) (hn : n ≠ 0) : ssd (List.replicate n c) = 0 := by
  have hmean : mean (List.replicate n c) = c := by
    unfold mean
    rw [List.sum_replicate, List.length_replicate, nsmul_eq_mul]
    have : ((n : ℚ)) ≠ 0 := by exact_mod_cast hn
    field_simp
  unfold ssd
  rw [hmean, List.map_replicate]
  simp

/-- C10: for every row with a full 10-bar history, the stored `volatility_10`
is the sample standard deviation of close over the trailing 10 bars
inclusive: it is the non-negative real `v` with `v^2 * 9` equal to the sum of
squared deviations from the window mean (the N-1 = 9 denominator), and it is
0 whenever the 10 trailing closes are identical. -/
theorem C10_theorem (bars : List PriceBar) (i : Nat)
    (h9 : 9 ≤ i) (hi : i < (sortDf bars).length) :
    ∃ v : ℝ, (mkRow (sortDf bars) i).volatility_10 = some v ∧ 0 ≤ v ∧
      v ^ 2 * 9 = ((ssd (window 10 ((sortDf bars).map PriceBar.close) i) : ℚ) : ℝ) ∧
      (∀ c : ℚ, window 10 ((sortDf bars).map PriceBar.close) i = List.replicate 10 c →
        v = 0) := by
  set w := window 10 ((sortDf bars).map PriceBar.close) i with hw
  have hfield : (mkRow (sortDf bars) i).volatility_10_sq =
      PVal.num (ssd w / ((10 - 1 : Nat) : ℚ)) := by
    rw [mkRow_volatility_sq, rollingVarS, if_neg (by omega)]
  have hq9 : ((10 - 1 : Nat) : ℚ) = 9 := by norm_num
  refine ⟨Real.sqrt ((ssd w / ((10 - 1 : Nat) : ℚ) : ℚ) : ℝ), ?_, Real.sqrt_nonneg _, ?_, ?_⟩
  · unfold FeatureRow.volatility_10
    rw [hfield]
  · have hnn : (0 : ℝ) ≤ ((ssd w / ((10 - 1 : Nat) : ℚ) : ℚ) : ℝ) := by
      rw [hq9]
      have := ssd_nonneg w
      positivity
    rw [Real.sq_sqrt hnn, hq9]
    push_cast
    ring
  · intro c hc
    have : ssd w = 0 := by rw [hc]; exact ssd_replicate 10 c (by omega)
    rw [this, hq9]
    norm_num

/-- C10 witness: the constant-close bars at row 9 (whose trailing window is
ten identical closes). -/
theorem C10_witness :
    ∃ v : ℝ, (mkRow (sortDf bars11) 9).volatility_10 = some v ∧ 0 ≤ v ∧
      v ^ 2 * 9 = ((ssd (window 10 ((sortDf bars11).map PriceBar.close) 9) : ℚ) : ℝ) ∧
      (∀ c : ℚ, window 10 ((sortDf bars11).map PriceBar.close) 9 = List.replicate 10 c →
        v = 0) :=
  C10_theorem bars11 9 (by decide) (by with_unfolding_all decide)

theorem date_le_of_getLast (l : List ServingRow)
    (hs : List.Pairwise (fun a b : ServingRow => a.date ≤ b.date) l)
    (r : ServingRow) (hr : l.getLast? = some r) : ∀ x ∈ l, x.date ≤ r.date := by
  induction l with
  | nil => simp at hr
  | cons a t ih =>
    cases t with
    | nil =>
      simp only [List.getLast?_singleton, Option.some.injEq] at hr
      intro x hx
      rw [List.mem_singleton.mp hx, hr]
    | cons b t' =>
      rw [List.getLast?_cons_cons] at hr
      have hs' := List.pairwise_cons.mp hs
      intro x hx
      rcases List.mem_cons.mp hx with rfl | hxt
      · exact hs'.1 r (List.mem_of_getLast?_eq_some hr)
      · exact ih hs'.2 hr x hxt

/-- C1 counterexample: `predict` takes the physically last stored row
(`iloc[-1]`), not the row with the maximum date, and the selection changes
under a permutation of the stored rows: with the max-date row stored first,
the older row is selected. -/
theorem C1_counterexample :
    latestRow [rA1, rA0] "A" = some rA0 ∧ rA0.date < rA1.date ∧
    latestRow [rA1, rA0] "A" ≠ latestRow [rA0, rA1] "A" := by
  refine ⟨rfl, by decide, by decide⟩

/-- C1 (amended): `predict` selects the physically last stored row of the
symbol's rows; whenever those rows are stored in ascending date order — as
the feature pipeline writes them — this row has the maximum date, but the
selection is not invariant under permutations of the storage. -/
theorem C1_theorem (raw_data : List ServingRow) (symbol : String)
    (hsorted : List.Pairwise (fun a b : ServingRow => a.date ≤ b.date)
      (raw_data.filter (fun r => decide (r.symbol = symbol))))
    (hne : raw_data.filter (fun r => decide (r.symbol = symbol)) ≠ []) :
    ∃ r, latestRow raw_data symbol = some r ∧
      ∀ x ∈ raw_data.filter (fun r => decide (r.symbol = symbol)), x.date ≤ r.date := by
  obtain ⟨r, hr⟩ := Option.ne_none_iff_exists'.mp
    (mt List.getLast?_eq_none_iff.mp hne)
  exact ⟨r, hr, date_le_of_getLast _ hsorted r hr⟩

/-- C1 witness: on a date-sorted two-row store the selected row bounds both
rows' dates. -/
theorem C1_witness :
    ∃ r, latestRow [rA0, rA1] "A" = some r ∧
      ∀ x ∈ [rA0, rA1].filter (fun r => decide (r.symbol = "A")), x.date ≤ r.date :=
  C1_theorem [rA0, rA1] "A" (by simp [rA0, rA1, List.pairwise_cons]) (by decide)

/-- C5 counterexample: with the startup-loaded state fixed (the same loaded
classifier), both `predict` and the symbols listing change when the feature
store read at request time changes — the handlers re-read the CSV on every
request (src/app/main.py lines 74 and 88), so their results do depend on the
store contents at request time. -/
theorem C5_counterexample :
    get_available_symbols storeA ≠ get_available_symbols [] ∧
    predict (some mUp) storeA "A" ≠ predict (some mUp) [] "A" := by
  constructor
  · with_unfolding_all decide
  · with_unfolding_all decide

/-- C5 (amended): only the classifier is fixed at startup (with a failed load
the predict result is identical for every request-time store); the feature
table is re-read from the CSV on every `predict` and symbols request, so for
a fixed startup-loaded classifier the results depend on the feature-store
contents at request time. -/
theorem C5_theorem :
    (∀ s1 s2 : List ServingRow, ∀ sym : String, predict none s1 sym = predict none s2 sym) ∧
    (∃ s1 s2 : List ServingRow, get_available_symbols s1 ≠ get_available_symbols s2) ∧
    (∃ m : Model, ∃ sym : String, ∃ s1 s2 : List ServingRow,
       predict (some m) s1 sym ≠ predict (some m) s2 sym) := by
  refine ⟨fun s1 s2 sym => rfl, ⟨storeA, [], ?_⟩, ⟨mUp, "A", storeA, [], ?_⟩⟩
  · with_unfolding_all decide
  · with_unfolding_all decide

/-- C7: the confidence of a successful prediction is exactly the probability
the classifier assigns to the predicted class label
(`proba[predicted_label]`), and when the classifier's probabilities lie in
[0, 1] the returned confidence does too. -/
theorem C7_theorem (m : Model) (raw_data : List ServingRow) (symbol : String)
    (r : ServingRow) (c : ℚ)
    (hmem : symbol ∈ raw_data.map ServingRow.symbol)
    (hlast : latestRow raw_data symbol = some r)
    (hc : (m.predict_proba (featureVector r))[m.predict (featureVector r)]? = some c)
    (hp : ∀ p ∈ m.predict_proba (featureVector r), 0 ≤ p ∧ p ≤ 1) :
    ∃ resp, predict (some m) raw_data symbol = Except.ok resp ∧
      resp.confidence = c ∧ 0 ≤ resp.confidence ∧ resp.confidence ≤ 1 := by
  have hcm : c ∈ m.predict_proba (featureVector r) := by
    obtain ⟨hlt, hget⟩ := List.getElem?_eq_some_iff.mp hc
    exact hget ▸ List.getElem_mem hlt
  obtain ⟨hc0, hc1⟩ := hp c hcm
  have hok : predict (some m) raw_data symbol = Except.ok
      { symbol := symbol
        prediction := if m.predict (featureVector r) = 1 then "UP" else "DOWN"
        confidence := c
        predicted_date := toDateStr (nextTradingDay r.date) } := by
    simp only [predict, predictBody, hlast, hc, hmem, if_true]
  exact ⟨_, hok, rfl, hc0, hc1⟩

/-- C7 witness: the concrete classifier `mUp` on the one-row store. -/
theorem C7_witness :
    ∃ resp, predict (some mUp) storeA "A" = Except.ok resp ∧
      resp.confidence = 2/3 ∧ 0 ≤ resp.confidence ∧ resp.confidence ≤ 1 :=
  C7_theorem mUp storeA "A" rA19727 (2/3) (by decide) (by decide) (by rfl)
    (by with_unfolding_all decide)

/-- C8: for a symbol absent from the feature table, `predict` fails with the
404 NotFound `HTTPException`; the exception raised inside the prediction flow
passes through the surrounding broad `except` unchanged (it is re-raised
because it is an `HTTPException`, never re-wrapped into the 500
internal-error response), and no 200 response is produced. -/
theorem C8_theorem (m : Model) (raw_data : List ServingRow) (symbol : String)
    (habs : symbol ∉ raw_data.map ServingRow.symbol) :
    predict (some m) raw_data symbol =
      Except.error ⟨404, "Symbol \x27" ++ symbol ++ "\x27 not found in the dataset"⟩ ∧
    ∀ resp, predict (some m) raw_data symbol ≠ Except.ok resp := by
  have h : predict (some m) raw_data symbol =
      Except.error ⟨404, "Symbol \x27" ++ symbol ++ "\x27 not found in the dataset"⟩ := by
    simp only [predict, predictBody]
    rw [if_neg habs]
  exact ⟨h, fun resp hresp => by rw [h] at hresp; exact Except.noConfusion hresp⟩

/-- C8 witness: an unknown symbol on the concrete store. -/
theorem C8_witness :
    predict (some mUp) storeA "B" =
      Except.error ⟨404, "Symbol \x27B\x27 not found in the dataset"⟩ :=
  (C8_theorem mUp storeA "B" (by decide)).1

/-- C9: when the startup model load failed (`MODEL = None`), every `predict`
call fails fast with the model-not-loaded response — the spec's
ServiceUnavailable, surfaced as status 500 per the HTTP contract — before the
feature store is consulted (the response is identical for every store and
symbol); the symbols endpoint still succeeds, returning the distinct symbols
of the feature table sorted ascending. -/
theorem C9_theorem (raw_data : List ServingRow) (symbol : String) :
    predict none raw_data symbol =
      Except.error ⟨500, "Model not loaded. Please check server logs."⟩ ∧
    (∀ other : List ServingRow, predict none raw_data symbol = predict none other symbol) ∧
    ∃ l, get_available_symbols raw_data = Except.ok l ∧
      List.Sorted (fun a b : String => a ≤ b) l ∧ l.Nodup ∧
      ∀ s : String, s ∈ l ↔ s ∈ raw_data.map ServingRow.symbol := by
  refine ⟨rfl, fun other => rfl, _, rfl, ?_, ?_, ?_⟩
  · exact List.sorted_insertionSort _ _
  · exact ((List.perm_insertionSort _ _).nodup_iff).mpr
      (List.nodup_dedup _)
  · intro s
    rw [List.mem_insertionSort, List.mem_dedup]

/-- C9 witness: the model-not-loaded response and the sorted symbol listing
at a concrete store. -/
theorem C9_witness :
    predict none storeA "A" =
      Except.error ⟨500, "Model not loaded. Please check server logs."⟩ :=
  (C9_theorem storeA "A").1

end StockPred
